import Mathlib

/-!
Verification of the todo-board scheduling core of `backend-challenge`.

The embedding follows the Go source:
  * `internal/domain/model` (TodoItem, Click, Return, Update, NewTodoItem),
  * `internal/infrastructure/repository/mongo_todo_repository.go`
    (GetByID, Update, Delete, Create, FindToReturn over a document list),
  * `internal/domain/service/todo_service.go`
    (GetByID, Update, Delete, List, Click, TimeoutReturn, ReturnTimedOutItems).

Time is modelled as `Nat` (seconds); Go's zero `time.Time` (the "unset"
marker used with `omitempty`) is modelled as `0`.  Driver failures of the
Mongo client (network / server errors, which Go surfaces as non-`ErrNoDocuments`
errors from the collection calls) are modelled by the fault-injection record
`StoreFaults`; `noFaults` is the failure-free store.
-/

namespace TodoCore

/-- Go: `type ItemType string`. -/
abbrev ItemType := String

/-- Go: `type ItemStatus string`. -/
abbrev ItemStatus := String

/-- Go: `TypeFruit ItemType = "Fruit"`. -/
def typeFruit : ItemType := "Fruit"

/-- Go: `TypeVegetable ItemType = "Vegetable"`. -/
def typeVegetable : ItemType := "Vegetable"

/-- Go: `StatusMain ItemStatus = "MAIN"` (item in the main / shared list). -/
def statusMain : ItemStatus := "MAIN"

/-- Go: `StatusColumn ItemStatus = "COLUMN"` (item moved to its type column). -/
def statusColumn : ItemStatus := "COLUMN"

/-- Go struct `model.TodoItem`.  `clickedAt`/`returnAt` are `time.Time` with
`omitempty`; value `0` models the Go zero time (unset). -/
structure TodoItem where
  id : String
  type : ItemType
  name : String
  status : ItemStatus
  clickedAt : Nat
  returnAt : Nat
  createdAt : Nat
  updatedAt : Nat
deriving DecidableEq, Repr

/-- Go struct `model.CreateTodoInput`. -/
structure CreateTodoInput where
  type : ItemType
  name : String
deriving DecidableEq, Repr

/-- Go struct `model.UpdateTodoInput`; the empty string is the zero value of
an omitted patch field. -/
structure UpdateTodoInput where
  type : ItemType
  name : String
deriving DecidableEq, Repr

/-- Go: the 5-second dwell used in `Click` (`now.Add(5 * time.Second)`) and in
the `time.AfterFunc(5*time.Second, ...)` arming. -/
def dwellSeconds : Nat := 5

/-- Go `model.NewTodoItem`: fresh item in the main list; `uuid.New().String()`
is passed in as `newId`, `time.Now()` as `now`. -/
def NewTodoItem (newId : String) (input : CreateTodoInput) (now : Nat) : TodoItem :=
  { id := newId
    type := input.type
    name := input.name
    status := statusMain
    clickedAt := 0
    returnAt := 0
    createdAt := now
    updatedAt := now }

/-- Go `(*TodoItem).Update`: patch fields whose input is non-empty, bump
`UpdatedAt`. -/
def TodoItem.Update (t : TodoItem) (input : UpdateTodoInput) (now : Nat) : TodoItem :=
  let t1 := if input.type ≠ "" then { t with type := input.type } else t
  let t2 := if input.name ≠ "" then { t1 with name := input.name } else t1
  { t2 with updatedAt := now }

/-- Go `(*TodoItem).Click`: stamp `ClickedAt = now`, `ReturnAt = now + 5s`,
move to the column, bump `UpdatedAt`.  (Unconditional: no guard on the current
status.) -/
def TodoItem.Click (t : TodoItem) (now : Nat) : TodoItem :=
  { t with
    clickedAt := now
    returnAt := now + dwellSeconds
    status := statusColumn
    updatedAt := now }

/-- Go `(*TodoItem).Return`: move back to the main list and bump `UpdatedAt`.
(`ClickedAt`/`ReturnAt` are not touched.) -/
def TodoItem.Return (t : TodoItem) (now : Nat) : TodoItem :=
  { t with status := statusMain, updatedAt := now }

/-! ## Repository layer (mongo_todo_repository.go)

The Mongo collection is a list of documents; `_id` is the unique document
key.  A driver/server failure of a collection call (any error other than
`mongo.ErrNoDocuments` / a zero matched count) is injected through
`StoreFaults` and surfaces as `RepoError.storeUnavailable`. -/

/-- Mongo document list standing for the `todos` collection. -/
abbrev DB := List TodoItem

/-- Errors a repository call can produce: the repository's own
`ErrTodoNotFound` and an underlying store/driver failure. -/
inductive RepoError where
  | notFound
  | storeUnavailable
deriving DecidableEq, Repr

/-- Fault-injection spec for the underlying Mongo driver: which calls fail
with a driver error. -/
structure StoreFaults where
  getFails : String → Bool
  createFails : Bool
  updateFails : String → Bool
  deleteFails : String → Bool
  findFails : Bool

/-- The failure-free store. -/
def noFaults : StoreFaults :=
  { getFails := fun _ => false
    createFails := false
    updateFails := fun _ => false
    deleteFails := fun _ => false
    findFails := false }

/-- Go `mongoTodoRepository.GetByID`: `FindOne` on `_id`; `ErrNoDocuments`
becomes the repository's `ErrTodoNotFound`, other driver errors bubble. -/
def Repo.GetByID (f : StoreFaults) (db : DB) (id : String) :
    Except RepoError TodoItem :=
  if f.getFails id then .error .storeUnavailable
  else
    match db.find? (fun t => t.id == id) with
    | some t => .ok t
    | none => .error .notFound

/-- Go `mongoTodoRepository.Create`: `InsertOne` appends the document. -/
def Repo.Create (f : StoreFaults) (db : DB) (todo : TodoItem) :
    Except RepoError DB :=
  if f.createFails then .error .storeUnavailable
  else .ok (db ++ [todo])

/-- The `$set` document of Go `mongoTodoRepository.Update`: it writes `type`,
`name`, `status`, `clicked_at`, `return_at` from the given item and
`updated_at := time.Now()`, leaving `_id` and `created_at` of the stored
document alone. -/
def mongoSet (todo : TodoItem) (now : Nat) (t : TodoItem) : TodoItem :=
  { t with
    type := todo.type
    name := todo.name
    status := todo.status
    clickedAt := todo.clickedAt
    returnAt := todo.returnAt
    updatedAt := now }

/-- Go `mongoTodoRepository.Update`: `UpdateOne` on `_id`; a zero
`MatchedCount` becomes `ErrTodoNotFound`, driver errors bubble.  (`_id` is
unique in a Mongo collection, so updating every match models `UpdateOne`.) -/
def Repo.Update (f : StoreFaults) (db : DB) (todo : TodoItem) (now : Nat) :
    Except RepoError DB :=
  if f.updateFails todo.id then .error .storeUnavailable
  else if db.any (fun t => t.id == todo.id) then
    .ok (db.map (fun t => if t.id == todo.id then mongoSet todo now t else t))
  else .error .notFound

/-- Go `mongoTodoRepository.Delete`: `DeleteOne` on `_id`; a zero
`DeletedCount` becomes `ErrTodoNotFound`, driver errors bubble. -/
def Repo.Delete (f : StoreFaults) (db : DB) (id : String) :
    Except RepoError DB :=
  if f.deleteFails id then .error .storeUnavailable
  else if db.any (fun t => t.id == id) then
    .ok (db.filter (fun t => !(t.id == id)))
  else .error .notFound

/-- Go `mongoTodoRepository.FindToReturn`: all documents with
`status = COLUMN` and `return_at <= now`; driver errors bubble.  (The
RFC3339 `currentTime` string is already parsed to `now`.) -/
def Repo.FindToReturn (f : StoreFaults) (db : DB) (now : Nat) :
    Except RepoError (List TodoItem) :=
  if f.findFails then .error .storeUnavailable
  else .ok (db.filter (fun t => t.status == statusColumn && decide (t.returnAt ≤ now)))

/-! ## Service layer (todo_service.go)

Each operation is state-passing over the document list: the pair is the Go
return value together with the collection after the call (Go mutates the
store through the repository; an erroring call leaves it as it was, matching
the early returns in the source). -/

/-- Service-level errors of `todo_service.go`: `ErrTodoNotFound`,
`ErrInvalidID`, and a repository error returned unchanged
(`return nil, err`). -/
inductive SvcError where
  | todoNotFound
  | invalidID
  | repo (e : RepoError)
deriving DecidableEq, Repr

/-- Go `todoService.Create`: build the item, save it; a repository error
bubbles unchanged. -/
def Svc.Create (f : StoreFaults) (db : DB) (newId : String)
    (input : CreateTodoInput) (now : Nat) : Except SvcError TodoItem × DB :=
  let todo := NewTodoItem newId input now
  match Repo.Create f db todo with
  | .error e => (.error (.repo e), db)
  | .ok db2 => (.ok todo, db2)

/-- Go `todoService.GetByID`: empty id is `ErrInvalidID`; ANY repository
error (also a driver failure) is replaced by `ErrTodoNotFound`. -/
def Svc.GetByID (f : StoreFaults) (db : DB) (id : String) :
    Except SvcError TodoItem :=
  if id == "" then .error .invalidID
  else
    match Repo.GetByID f db id with
    | .error _ => .error .todoNotFound
    | .ok todo => .ok todo

/-- Go `todoService.Update`: fetch (errors replaced by `ErrTodoNotFound`),
apply the patch, save (repository error bubbles unchanged). -/
def Svc.Update (f : StoreFaults) (db : DB) (id : String)
    (input : UpdateTodoInput) (now : Nat) : Except SvcError TodoItem × DB :=
  match Repo.GetByID f db id with
  | .error _ => (.error .todoNotFound, db)
  | .ok todo =>
    let todo2 := todo.Update input now
    match Repo.Update f db todo2 now with
    | .error e => (.error (.repo e), db)
    | .ok db2 => (.ok todo2, db2)

/-- Go `todoService.Delete`: empty id is `ErrInvalidID`; the existence check
replaces its error by `ErrTodoNotFound`; the delete's own error bubbles. -/
def Svc.Delete (f : StoreFaults) (db : DB) (id : String) :
    Except SvcError Unit × DB :=
  if id == "" then (.error .invalidID, db)
  else
    match Repo.GetByID f db id with
    | .error _ => (.error .todoNotFound, db)
    | .ok _ =>
      match Repo.Delete f db id with
      | .error e => (.error (.repo e), db)
      | .ok db2 => (.ok (), db2)

/-- Result type of Go `todoService.List`: `model.TodosGrouped`.  The Go map
`Column map[ItemType][]*TodoItem` is a function from type to bucket (a type
absent from the map reads as the empty bucket). -/
structure TodosGrouped where
  main : List TodoItem
  column : ItemType → List TodoItem

/-- One iteration of the grouping loop in Go `todoService.List`. -/
def groupStep (acc : TodosGrouped) (todo : TodoItem) : TodosGrouped :=
  if todo.status == statusMain then
    { acc with main := acc.main ++ [todo] }
  else if todo.status == statusColumn then
    { acc with
      column := fun c =>
        if c == todo.type then acc.column c ++ [todo] else acc.column c }
  else acc

/-- Go `todoService.List` after a successful `repo.List` (which returns the
whole collection; its error would bubble unchanged): group by status, then
by type within the column group. -/
def Svc.List (db : DB) : TodosGrouped :=
  db.foldl groupStep { main := [], column := fun _ => [] }

/-- Go `todoService.Click`: fetch (errors replaced by `ErrTodoNotFound`),
`todo.Click()`, save (repository error bubbles unchanged).  The
`time.AfterFunc(5*time.Second, ...)` arming is modelled by `timerFire`
below, invoked separately after the dwell. -/
def Svc.Click (f : StoreFaults) (db : DB) (id : String) (now : Nat) :
    Except SvcError TodoItem × DB :=
  match Repo.GetByID f db id with
  | .error _ => (.error .todoNotFound, db)
  | .ok todo =>
    let todo2 := todo.Click now
    match Repo.Update f db todo2 now with
    | .error e => (.error (.repo e), db)
    | .ok db2 => (.ok todo2, db2)

/-- Go `todoService.TimeoutReturn`: fetch (errors replaced by
`ErrTodoNotFound`); only if the stored item is still `COLUMN` apply
`todo.Return()` and save (save error bubbles); otherwise succeed without
writing. -/
def Svc.TimeoutReturn (f : StoreFaults) (db : DB) (id : String) (now : Nat) :
    Except SvcError Unit × DB :=
  match Repo.GetByID f db id with
  | .error _ => (.error .todoNotFound, db)
  | .ok todo =>
    if todo.status == statusColumn then
      let todo2 := todo.Return now
      match Repo.Update f db todo2 now with
      | .error e => (.error (.repo e), db)
      | .ok db2 => (.ok (), db2)
    else (.ok (), db)

/-- The body of the `time.AfterFunc` closure armed by `Click`:
`_ = s.TimeoutReturn(bgCtx, id)` — the error is discarded, only the store
effect remains. -/
def timerFire (f : StoreFaults) (db : DB) (id : String) (now : Nat) : DB :=
  (Svc.TimeoutReturn f db id now).2

/-- The per-item loop of Go `todoService.ReturnTimedOutItems`: for each item
`item.Return()` then save; on a save error log and continue without
counting; a success adds one to the count. -/
def sweepLoop (f : StoreFaults) (now : Nat) : DB → List TodoItem → Nat × DB
  | db, [] => (0, db)
  | db, item :: rest =>
    let item2 := item.Return now
    match Repo.Update f db item2 now with
    | .error _ => sweepLoop f now db rest
    | .ok db2 =>
      let res := sweepLoop f now db2 rest
      (res.1 + 1, res.2)

/-- Go `todoService.ReturnTimedOutItems`: query `FindToReturn` (its error
bubbles unchanged with a zero count), then run the per-item loop and report
how many items were returned. -/
def Svc.ReturnTimedOutItems (f : StoreFaults) (db : DB) (now : Nat) :
    Except SvcError Nat × DB :=
  match Repo.FindToReturn f db now with
  | .error e => (.error (.repo e), db)
  | .ok items =>
    let res := sweepLoop f now db items
    (.ok res.1, res.2)

/-! ## Concrete sample items used by counterexamples and witnesses -/

/-- A freshly created item (state of the spec's scenario 1). -/
def appleShared : TodoItem := NewTodoItem "a" { type := typeFruit, name := "Apple" } 0

/-- The sample item after a click at time 1 (`COLUMN`, deadline 6). -/
def appleColumn : TodoItem := TodoItem.Click appleShared 1

/-- A second sample item, clicked at time 2 (`COLUMN`, deadline 7). -/
def bananaColumn : TodoItem :=
  TodoItem.Click (NewTodoItem "b" { type := typeFruit, name := "Banana" } 0) 2

/-- A store whose reads fail with a driver error. -/
def getFaulty : StoreFaults := { noFaults with getFails := fun _ => true }

/-- A store whose writes fail with a driver error. -/
def updateFaulty : StoreFaults := { noFaults with updateFails := fun _ => true }

/-- A store whose writes fail with a driver error exactly on document "a". -/
def updateFaultyA : StoreFaults := { noFaults with updateFails := fun i => i == "a" }

/-! ## Theorems for the claims -/

/-- C1, counterexample: on an already-`COLUMN` item (clicked at 1, deadline 6)
a second click at time 2 is NOT a no-op — it re-stamps `clickedAt` to 2 and
resets the deadline to `2 + 5 = 7`, not the original 6. -/
theorem C1_counterexample :
    TodoItem.Click appleColumn 2 ≠ appleColumn ∧
    (TodoItem.Click appleColumn 2).returnAt = 7 ∧
    appleColumn.returnAt = 6 ∧
    appleColumn.status = statusColumn := by
  decide

/-- C1, amended: `Click` carries no guard on the current status — applied to
any item (in particular an already-`InColumn` one) at time `t2` it re-stamps
`clickedAt := t2` and resets the deadline to `t2 + DwellDuration`; the
composite of two activations is idempotent only when both carry the same
timestamp. -/
theorem C1_click_restamps (x : TodoItem) (t1 t2 : Nat) :
    ((TodoItem.Click x t1).Click t2).returnAt = t2 + dwellSeconds ∧
    ((TodoItem.Click x t1).Click t2).clickedAt = t2 ∧
    ((TodoItem.Click x t1).Click t2).status = statusColumn ∧
    (TodoItem.Click x t2).Click t2 = TodoItem.Click x t2 :=
  ⟨rfl, rfl, rfl, rfl⟩

/-- C2, counterexample: create at 0, click at 1, return at 2 — the returned
item is back in `MAIN` but its `clickedAt`/`returnAt` are NOT cleared (they
keep 1 and 6), so `Shared ⇔ both unset` fails after the first return. -/
theorem C2_counterexample :
    ((appleColumn.Return 2).status = statusMain ∧
      (appleColumn.Return 2).clickedAt ≠ 0 ∧
      (appleColumn.Return 2).returnAt ≠ 0) := by
  decide

/-- C2, amended: `Return` moves the item to `MAIN` and bumps `updatedAt` but
leaves `clickedAt`/`returnAt` exactly as they were (stale, not cleared);
`InColumn ⇒ both set` does hold in the forward direction — `Click` stamps
both and a fresh item is `MAIN` with both unset. -/
theorem C2_return_preserves_timestamps (x : TodoItem) (now : Nat)
    (i : String) (inp : CreateTodoInput) :
    (TodoItem.Return x now).status = statusMain ∧
    (TodoItem.Return x now).clickedAt = x.clickedAt ∧
    (TodoItem.Return x now).returnAt = x.returnAt ∧
    (TodoItem.Return x now).updatedAt = now ∧
    (TodoItem.Click x now).status = statusColumn ∧
    (TodoItem.Click x now).clickedAt = now ∧
    (TodoItem.Click x now).returnAt = now + dwellSeconds ∧
    (NewTodoItem i inp now).status = statusMain ∧
    (NewTodoItem i inp now).clickedAt = 0 ∧
    (NewTodoItem i inp now).returnAt = 0 :=
  ⟨rfl, rfl, rfl, rfl, rfl, rfl, rfl, rfl, rfl, rfl⟩

/-- C7: after a click at time `T` the item carries `clickedAt = T` and
`returnAt = T + DwellDuration` exactly; neither `Update` nor `Return`
recomputes the deadline, and the repository write persists the given
`return_at` verbatim. -/
theorem C7_deadline_exact (t : TodoItem) (T now : Nat) (input : UpdateTodoInput) :
    (TodoItem.Click t T).clickedAt = T ∧
    (TodoItem.Click t T).returnAt = T + dwellSeconds ∧
    (TodoItem.Update t input now).returnAt = t.returnAt ∧
    (TodoItem.Return t now).returnAt = t.returnAt ∧
    (∀ u : TodoItem, (mongoSet t now u).returnAt = t.returnAt) := by
  refine ⟨rfl, rfl, ?_, rfl, fun u => rfl⟩
  unfold TodoItem.Update
  by_cases h1 : input.type = "" <;> by_cases h2 : input.name = "" <;> simp [h1, h2]

/-- C10: in `Update` an empty patch field is treated as absent — empty `type`
or `name` leaves the field unchanged (so the name can never be changed to the
empty string through an update); `status`, `clickedAt`, `returnAt`,
`createdAt` are untouched and `updatedAt` is bumped to `now`. -/
theorem C10_update_empty_patch (t : TodoItem) (input : UpdateTodoInput) (now : Nat) :
    (input.type = "" → (TodoItem.Update t input now).type = t.type) ∧
    (input.name = "" → (TodoItem.Update t input now).name = t.name) ∧
    ((TodoItem.Update t input now).name = "" → t.name = "") ∧
    (TodoItem.Update t input now).status = t.status ∧
    (TodoItem.Update t input now).clickedAt = t.clickedAt ∧
    (TodoItem.Update t input now).returnAt = t.returnAt ∧
    (TodoItem.Update t input now).createdAt = t.createdAt ∧
    (TodoItem.Update t input now).updatedAt = now := by
  unfold TodoItem.Update
  by_cases h1 : input.type = "" <;> by_cases h2 : input.name = "" <;>
    simp [h1, h2]

/-- C10, witness: a concrete run of the theorem — an all-empty patch at time 9
leaves the sample item's name `Apple`. -/
theorem C10_witness :
    (TodoItem.Update appleShared { type := "", name := "" } 9).name = appleShared.name :=
  (C10_update_empty_patch appleShared { type := "", name := "" } 9).2.1 rfl

/-! ## Helper lemmas about the repository write and the sweep loop -/

theorem mongoSet_id (todo : TodoItem) (now : Nat) (t : TodoItem) :
    (mongoSet todo now t).id = t.id := rfl

theorem mongoSet_status (todo : TodoItem) (now : Nat) (t : TodoItem) :
    (mongoSet todo now t).status = todo.status := rfl

/-- Mapping an id-preserving per-document rewrite leaves the id sequence. -/
theorem upd_map_id (todo : TodoItem) (now : Nat) (db : DB) :
    (db.map fun t => if t.id == todo.id then mongoSet todo now t else t).map TodoItem.id
      = db.map TodoItem.id := by
  induction db with
  | nil => rfl
  | cons hd tl ih =>
    simp only [List.map_cons, ih]
    split <;> rfl

/-- A repository update never changes the stored id sequence. -/
theorem Repo.update_ids (f : StoreFaults) (db db2 : DB) (todo : TodoItem) (now : Nat)
    (h : Repo.Update f db todo now = .ok db2) :
    db2.map TodoItem.id = db.map TodoItem.id := by
  unfold Repo.Update at h
  split at h
  · exact absurd h (by simp)
  · split at h
    · cases h
      exact upd_map_id todo now db
    · exact absurd h (by simp)

/-- A record whose id differs from the written one is untouched by a
successful repository update (and by a failed one, trivially). -/
theorem Repo.update_untouched (f : StoreFaults) (db db2 : DB) (todo : TodoItem)
    (now : Nat) (u : TodoItem)
    (h : Repo.Update f db todo now = .ok db2)
    (hu : u ∈ db) (hne : u.id ≠ todo.id) : u ∈ db2 := by
  unfold Repo.Update at h
  split at h
  · exact absurd h (by simp)
  · split at h
    · cases h
      refine List.mem_map.2 ⟨u, hu, ?_⟩
      simp [hne]
    · exact absurd h (by simp)

/-- After a successful repository update, every stored record carrying the
written id has the written status. -/
theorem Repo.update_written_status (f : StoreFaults) (db db2 : DB) (todo : TodoItem)
    (now : Nat)
    (h : Repo.Update f db todo now = .ok db2) :
    ∀ u ∈ db2, u.id = todo.id → u.status = todo.status := by
  unfold Repo.Update at h
  split at h
  · exact absurd h (by simp)
  · split at h
    · cases h
      intro u hu hid
      rcases List.mem_map.1 hu with ⟨v, hv, rfl⟩
      by_cases hvid : v.id == todo.id
      · simp [hvid, mongoSet_status]
      · simp [hvid] at hid ⊢
        exact absurd hid (by simpa using hvid)
    · exact absurd h (by simp)

/-- A repository update whose written item has status `MAIN` preserves the
property that every record with a given id is in `MAIN`. -/
theorem Repo.update_preserves_main (f : StoreFaults) (db db2 : DB) (todo : TodoItem)
    (now : Nat) (x : String)
    (h : Repo.Update f db todo now = .ok db2)
    (hmain : todo.status = statusMain)
    (hdb : ∀ u ∈ db, u.id = x → u.status = statusMain) :
    ∀ u ∈ db2, u.id = x → u.status = statusMain := by
  unfold Repo.Update at h
  split at h
  · exact absurd h (by simp)
  · split at h
    · cases h
      intro u hu hid
      rcases List.mem_map.1 hu with ⟨v, hv, rfl⟩
      by_cases hvid : v.id == todo.id
      · simpa [hvid, mongoSet_status] using hmain
      · simp [hvid] at hid ⊢
        exact hdb v hv hid
    · exact absurd h (by simp)

/-- A successful update requires the written id to be present; with a
fault-free write on a present id, the update succeeds. -/
theorem Repo.update_ok_of_present (f : StoreFaults) (db : DB) (todo : TodoItem)
    (now : Nat)
    (hfail : f.updateFails todo.id = false)
    (hpres : todo.id ∈ db.map TodoItem.id) :
    Repo.Update f db todo now
      = .ok (db.map fun t => if t.id == todo.id then mongoSet todo now t else t) := by
  unfold Repo.Update
  rcases List.mem_map.1 hpres with ⟨v, hv, hvid⟩
  have hany : db.any (fun t => t.id == todo.id) = true :=
    List.any_eq_true.2 ⟨v, hv, by simp [hvid]⟩
  simp [hfail, hany]

/-- A record delivered by a successful read is stored and carries the
requested id. -/
theorem Repo.getByID_ok (f : StoreFaults) (db : DB) (id : String) (t : TodoItem)
    (h : Repo.GetByID f db id = .ok t) : t ∈ db ∧ t.id = id := by
  unfold Repo.GetByID at h
  split at h
  · exact absurd h (by simp)
  · cases hf : db.find? (fun u => u.id == id) with
    | none => rw [hf] at h; exact absurd h (by simp)
    | some u =>
      rw [hf] at h
      cases h
      exact ⟨List.mem_of_find?_eq_some hf, by simpa using List.find?_some hf⟩

/-- The item patch never changes the id. -/
theorem TodoItem.update_id (t : TodoItem) (input : UpdateTodoInput) (now : Nat) :
    (TodoItem.Update t input now).id = t.id := by
  unfold TodoItem.Update
  by_cases h1 : input.type = "" <;> by_cases h2 : input.name = "" <;> simp [h1, h2]

/-- When every stored record with the given id is already `MAIN`, a timeout
return leaves the collection exactly as it was (whatever faults and whatever
its returned error). -/
theorem timeoutReturn_state_noop (f : StoreFaults) (db : DB) (id : String) (now : Nat)
    (h : ∀ u ∈ db, u.id = id → u.status = statusMain) :
    (Svc.TimeoutReturn f db id now).2 = db := by
  unfold Svc.TimeoutReturn
  cases hg : Repo.GetByID f db id with
  | error e => rfl
  | ok todo =>
    obtain ⟨hmem, hid⟩ := Repo.getByID_ok f db id todo hg
    have hmain : todo.status = statusMain := h todo hmem hid
    simp [hmain, statusMain, statusColumn]

/-- The sweep loop never changes the stored id sequence. -/
theorem sweepLoop_ids (f : StoreFaults) (now : Nat) (items : List TodoItem) :
    ∀ db : DB, ((sweepLoop f now db items).2).map TodoItem.id = db.map TodoItem.id := by
  induction items with
  | nil => intro db; rfl
  | cons item rest ih =>
    intro db
    simp only [sweepLoop]
    cases hupd : Repo.Update f db (item.Return now) now with
    | error e => exact ih db
    | ok db2 =>
      have h2 := Repo.update_ids f db db2 _ now hupd
      simpa [h2] using ih db2

/-- The sweep count is exactly the number of processed items whose write did
not fail (every queried item is stored, so a write fails only by fault
injection). -/
theorem sweepLoop_count (f : StoreFaults) (now : Nat) (items : List TodoItem) :
    ∀ db : DB, (∀ i ∈ items, i.id ∈ db.map TodoItem.id) →
      (sweepLoop f now db items).1
        = (items.filter fun i => !(f.updateFails i.id)).length := by
  induction items with
  | nil => intro db _; rfl
  | cons item rest ih =>
    intro db hsub
    have hpres : item.id ∈ db.map TodoItem.id := hsub item (by simp)
    have hsubr : ∀ i ∈ rest, i.id ∈ db.map TodoItem.id :=
      fun i hi => hsub i (by simp [hi])
    simp only [sweepLoop]
    by_cases hf : f.updateFails item.id = true
    · have hupd : Repo.Update f db (item.Return now) now = .error .storeUnavailable := by
        unfold Repo.Update
        simp [show (TodoItem.Return item now).id = item.id from rfl, hf]
      rw [hupd]
      simp only [List.filter_cons, hf, Bool.not_true]
      exact ih db hsubr
    · replace hf : f.updateFails item.id = false := by simpa using hf
      have hupd := Repo.update_ok_of_present f db (item.Return now) now
        (by simpa using hf) (by simpa using hpres)
      rw [hupd]
      have hids := upd_map_id (item.Return now) now db
      simp only [List.filter_cons, hf, Bool.not_false, List.length_cons]
      rw [ih _ (fun i hi => by rw [hids]; exact hsubr i hi)]
      simp

/-- A record whose id is never written by the sweep survives it unchanged. -/
theorem sweepLoop_untouched (f : StoreFaults) (now : Nat) (items : List TodoItem) :
    ∀ db : DB, ∀ u ∈ db, (∀ i ∈ items, i.id ≠ u.id) →
      u ∈ (sweepLoop f now db items).2 := by
  induction items with
  | nil => intro db u hu _; simpa [sweepLoop] using hu
  | cons item rest ih =>
    intro db u hu hne
    simp only [sweepLoop]
    cases hupd : Repo.Update f db (item.Return now) now with
    | error e => exact ih db u hu (fun i hi => hne i (by simp [hi]))
    | ok db2 =>
      have hu2 : u ∈ db2 :=
        Repo.update_untouched f db db2 _ now u hupd hu
          (fun hh => hne item (by simp) (by simpa using hh.symm))
      exact ih db2 u hu2 (fun i hi => hne i (by simp [hi]))

/-- The sweep loop preserves the property that every record with a given id
is already back in `MAIN` (every write of the loop writes `MAIN`). -/
theorem sweepLoop_preserves_main (f : StoreFaults) (now : Nat) (items : List TodoItem) :
    ∀ db : DB, ∀ x : String,
      (∀ u ∈ db, u.id = x → u.status = statusMain) →
      ∀ u ∈ (sweepLoop f now db items).2, u.id = x → u.status = statusMain := by
  induction items with
  | nil => intro db x hdb; simpa [sweepLoop] using hdb
  | cons item rest ih =>
    intro db x hdb
    simp only [sweepLoop]
    cases hupd : Repo.Update f db (item.Return now) now with
    | error e => exact ih db x hdb
    | ok db2 =>
      exact ih db2 x (Repo.update_preserves_main f db db2 _ now x hupd rfl hdb)

/-- Every queried item whose write does not fail ends the sweep stored in
`MAIN` (processing continues past failures of other items). -/
theorem sweepLoop_returned (f : StoreFaults) (now : Nat) (items : List TodoItem) :
    ∀ db : DB, (∀ i ∈ items, i.id ∈ db.map TodoItem.id) →
      ∀ i ∈ items, f.updateFails i.id = false →
      ∀ u ∈ (sweepLoop f now db items).2, u.id = i.id → u.status = statusMain := by
  induction items with
  | nil => intro db _ i hi; cases hi
  | cons item rest ih =>
    intro db hsub i hi hf
    simp only [sweepLoop]
    rcases List.mem_cons.1 hi with rfl | hir
    · have hupd := Repo.update_ok_of_present f db (i.Return now) now
        (by simpa using hf) (by simpa using hsub i (by simp))
      rw [hupd]
      intro u hu hid
      refine sweepLoop_preserves_main f now rest _ i.id ?_ u hu hid
      intro v hv hvid
      exact Repo.update_written_status f db _ (i.Return now) now hupd v hv hvid
    · cases hupd : Repo.Update f db (item.Return now) now with
      | error e => exact ih db (fun j hj => hsub j (by simp [hj])) i hir hf
      | ok db2 =>
        have hids := Repo.update_ids f db db2 _ now hupd
        exact ih db2 (fun j hj => by rw [hids]; exact hsub j (by simp [hj])) i hir hf

/-- C3: `TimeoutReturn` persists the return only when the stored record is
still `COLUMN`; on an already-`MAIN` record it succeeds without writing, and
running it twice leaves exactly the collection of running it once
(state-wise `return ∘ return = return`). -/
theorem C3_timeoutReturn_cas (db : DB) (id : String) (t : TodoItem) (t1 t2 : Nat)
    (hget : Repo.GetByID noFaults db id = .ok t) :
    (t.status ≠ statusColumn → Svc.TimeoutReturn noFaults db id t1 = (.ok (), db)) ∧
    (t.status = statusColumn → ∃ db2,
      Svc.TimeoutReturn noFaults db id t1 = (.ok (), db2) ∧
      (∀ u ∈ db2, u.id = id → u.status = statusMain)) ∧
    (Svc.TimeoutReturn noFaults
        (Svc.TimeoutReturn noFaults db id t1).2 id t2).2
      = (Svc.TimeoutReturn noFaults db id t1).2 := by
  obtain ⟨hmem, hid⟩ := Repo.getByID_ok noFaults db id t hget
  by_cases hs : t.status = statusColumn
  · have hpres : (TodoItem.Return t t1).id ∈ db.map TodoItem.id :=
      List.mem_map.2 ⟨t, hmem, rfl⟩
    have hupd := Repo.update_ok_of_present noFaults db (t.Return t1) t1 rfl hpres
    have hrun : Svc.TimeoutReturn noFaults db id t1
        = (.ok (), db.map fun u =>
            if u.id == (TodoItem.Return t t1).id then
              mongoSet (TodoItem.Return t t1) t1 u else u) := by
      unfold Svc.TimeoutReturn
      rw [hget]
      simp only [hs, statusColumn, beq_self_eq_true, if_true]
      rw [hupd]
    have hafter : ∀ u ∈ (db.map fun u =>
        if u.id == (TodoItem.Return t t1).id then
          mongoSet (TodoItem.Return t t1) t1 u else u), u.id = id → u.status = statusMain := by
      intro u hu huid
      refine Repo.update_written_status noFaults db _ (t.Return t1) t1 hupd u hu ?_
      show u.id = t.id
      rw [hid]
      exact huid
    refine ⟨fun hns => absurd hs hns, fun _ => ⟨_, hrun, hafter⟩, ?_⟩
    rw [hrun]
    exact timeoutReturn_state_noop noFaults _ id t2 hafter
  · have hrun : Svc.TimeoutReturn noFaults db id t1 = (.ok (), db) := by
      unfold Svc.TimeoutReturn
      rw [hget]
      simp [hs]
    have hrun2 : Svc.TimeoutReturn noFaults db id t2 = (.ok (), db) := by
      unfold Svc.TimeoutReturn
      rw [hget]
      simp [hs]
    exact ⟨fun _ => hrun, fun hcol => absurd hcol hs, by rw [hrun]; rw [hrun2]⟩

/-- C3, witness: on the one-item store holding the clicked sample item, a
timeout return at 6 then a second at 7 leave the store of the first. -/
theorem C3_witness :
    (Svc.TimeoutReturn noFaults
        (Svc.TimeoutReturn noFaults [appleColumn] "a" 6).2 "a" 7).2
      = (Svc.TimeoutReturn noFaults [appleColumn] "a" 6).2 :=
  (C3_timeoutReturn_cas [appleColumn] "a" appleColumn 6 7 rfl).2.2

/-- C5: the sweep query selects a stored record iff it is `COLUMN` with
`return_at <= now`, and (with unique ids) a `COLUMN` record whose deadline
has not yet passed survives the whole sweep pass unchanged. -/
theorem C5_overdue_query (db : DB) (now : Nat) (t : TodoItem)
    (hnd : (db.map TodoItem.id).Nodup) :
    ∃ items, Repo.FindToReturn noFaults db now = .ok items ∧
      (t ∈ items ↔ t ∈ db ∧ t.status = statusColumn ∧ t.returnAt ≤ now) ∧
      (t ∈ db → t.status = statusColumn → now < t.returnAt →
        t ∈ (Svc.ReturnTimedOutItems noFaults db now).2) := by
  refine ⟨db.filter fun u => u.status == statusColumn && decide (u.returnAt ≤ now),
    rfl, ?_, ?_⟩
  · simp [List.mem_filter, and_assoc]
  · intro hmem hcol hlt
    have hstep : Svc.ReturnTimedOutItems noFaults db now
        = (.ok (sweepLoop noFaults now db
            (db.filter fun u => u.status == statusColumn && decide (u.returnAt ≤ now))).1,
          (sweepLoop noFaults now db
            (db.filter fun u => u.status == statusColumn && decide (u.returnAt ≤ now))).2) := by
      unfold Svc.ReturnTimedOutItems Repo.FindToReturn
      simp [noFaults]
    rw [hstep]
    refine sweepLoop_untouched noFaults now _ db t hmem ?_
    intro i hi hieq
    have himem : i ∈ db := List.mem_of_mem_filter hi
    have hisel := (List.mem_filter.1 hi).2
    simp only [Bool.and_eq_true, beq_iff_eq, decide_eq_true_eq] at hisel
    have hile : i.returnAt ≤ now := hisel.2
    have : i = t := List.inj_on_of_nodup_map hnd himem hmem hieq
    subst this
    exact absurd hile (by omega)

/-- C5, witness: at `now = 4` the clicked sample item (deadline 6) is not
selected and is still stored after a full sweep pass. -/
theorem C5_witness :
    appleColumn ∈ (Svc.ReturnTimedOutItems noFaults [appleColumn] 4).2 := by
  obtain ⟨items, h1, h2, h3⟩ :=
    C5_overdue_query [appleColumn] 4 appleColumn (by decide)
  exact h3 (by decide) (by decide) (by decide)

/-- C6: a sweep pass reports exactly the number of queried items whose write
succeeded, and every queried item whose write did not fail is stored back in
`MAIN` at the end of the pass — a failure on one item never aborts the
rest and is not propagated as the sweep's error. -/
theorem C6_sweep_isolation (f : StoreFaults) (db : DB) (now : Nat)
    (hff : f.findFails = false) :
    ∃ items db2,
      Repo.FindToReturn f db now = .ok items ∧
      Svc.ReturnTimedOutItems f db now
        = (.ok (items.filter fun i => !(f.updateFails i.id)).length, db2) ∧
      (∀ i ∈ items, f.updateFails i.id = false →
        ∀ u ∈ db2, u.id = i.id → u.status = statusMain) := by
  have hfind : Repo.FindToReturn f db now
      = .ok (db.filter fun u => u.status == statusColumn && decide (u.returnAt ≤ now)) := by
    unfold Repo.FindToReturn
    simp [hff]
  have hsub : ∀ i ∈ (db.filter fun u =>
      u.status == statusColumn && decide (u.returnAt ≤ now)),
      i.id ∈ db.map TodoItem.id :=
    fun i hi => List.mem_map.2 ⟨i, List.mem_of_mem_filter hi, rfl⟩
  refine ⟨_, (sweepLoop f now db (db.filter fun u =>
      u.status == statusColumn && decide (u.returnAt ≤ now))).2, hfind, ?_, ?_⟩
  · unfold Svc.ReturnTimedOutItems
    rw [hfind]
    simp only []
    rw [sweepLoop_count f now _ db hsub]
  · exact fun i hi hf => sweepLoop_returned f now _ db hsub i hi hf

/-- C6, witness: with the write on document "a" failing, a sweep at 10 over
the two clicked sample items reports exactly one returned item. -/
theorem C6_witness :
    (Svc.ReturnTimedOutItems updateFaultyA [appleColumn, bananaColumn] 10).1 = .ok 1 := by
  obtain ⟨items, db2, h1, h2, h3⟩ :=
    C6_sweep_isolation updateFaultyA [appleColumn, bananaColumn] 10 rfl
  have h0 : Repo.FindToReturn updateFaultyA [appleColumn, bananaColumn] 10
      = .ok [appleColumn, bananaColumn] := rfl
  rw [h0] at h1
  obtain rfl := (Except.ok.inj h1).symm
  rw [h2]
  rfl

/-- C9: a fast-path trigger firing for a deleted (or already returned) item
is a harmless no-op — the store is untouched, the `NotFound` is produced but
discarded by the timer call site, and a sweep over a store with no record
for the id reports no error and a count that cannot include it. -/
theorem C9_deleted_noop (f : StoreFaults) (db : DB) (id : String) (now : Nat)
    (hdel : ∀ u ∈ db, u.id ≠ id)
    (hff : f.findFails = false) :
    timerFire f db id now = db ∧
    (f.getFails id = false → Svc.TimeoutReturn f db id now = (.error .todoNotFound, db)) ∧
    (∀ db' : DB, (∀ u ∈ db', u.id = id → u.status = statusMain) →
      timerFire f db' id now = db') ∧
    (∃ items db2,
      Repo.FindToReturn f db now = .ok items ∧
      (∀ i ∈ items, i.id ≠ id) ∧
      Svc.ReturnTimedOutItems f db now
        = (.ok (items.filter fun i => !(f.updateFails i.id)).length, db2)) := by
  have hnone : db.find? (fun u => u.id == id) = none :=
    List.find?_eq_none.2 (fun u hu => by simpa using hdel u hu)
  have hnotok : ∀ u, Repo.GetByID f db id ≠ .ok u := by
    intro u hu
    obtain ⟨hmem, hid⟩ := Repo.getByID_ok f db id u hu
    exact hdel u hmem hid
  have hfire : ∀ t0 : Nat, timerFire f db id t0 = db := by
    intro t0
    unfold timerFire Svc.TimeoutReturn
    cases hg : Repo.GetByID f db id with
    | error e => rfl
    | ok todo => exact absurd hg (hnotok todo)
  have hget : f.getFails id = false → Svc.TimeoutReturn f db id now
      = (.error .todoNotFound, db) := by
    intro hgf
    have hge : Repo.GetByID f db id = .error .notFound := by
      unfold Repo.GetByID
      rw [hgf]
      simp only [Bool.false_eq_true, if_false]
      rw [hnone]
    unfold Svc.TimeoutReturn
    rw [hge]
  refine ⟨hfire now, hget, ?_, ?_⟩
  · intro db' hmain
    exact timeoutReturn_state_noop f db' id now hmain
  · have hfind : Repo.FindToReturn f db now
        = .ok (db.filter fun u => u.status == statusColumn && decide (u.returnAt ≤ now)) := by
      unfold Repo.FindToReturn
      simp [hff]
    have hsub : ∀ i ∈ (db.filter fun u =>
        u.status == statusColumn && decide (u.returnAt ≤ now)),
        i.id ∈ db.map TodoItem.id :=
      fun i hi => List.mem_map.2 ⟨i, List.mem_of_mem_filter hi, rfl⟩
    refine ⟨_, (sweepLoop f now db (db.filter fun u =>
        u.status == statusColumn && decide (u.returnAt ≤ now))).2, hfind, ?_, ?_⟩
    · exact fun i hi => hdel i (List.mem_of_mem_filter hi)
    · unfold Svc.ReturnTimedOutItems
      rw [hfind]
      simp only []
      rw [sweepLoop_count f now _ db hsub]

/-- C9, witness: the trigger for the absent id "zzz" over the one-item store
leaves the store exactly as it was. -/
theorem C9_witness :
    timerFire noFaults [appleColumn] "zzz" 10 = [appleColumn] :=
  (C9_deleted_noop noFaults [appleColumn] "zzz" 10 (by decide) rfl).1

/-- C4, counterexample: when the underlying store fails on the read, the
service's `GetByID` does NOT surface the store failure — it answers
`ErrTodoNotFound`, converting the typed store error into a different one. -/
theorem C4_counterexample :
    Svc.GetByID getFaulty [appleShared] "a" = .error .todoNotFound := rfl

/-- C4, amended: write-path store failures (create, and the save steps of
update/click, and the delete step) bubble to the caller unchanged as the
typed store error with no state change, but a store failure on the initial
read of get/update/delete/click is converted into `ErrTodoNotFound` (also
with no state change). -/
theorem C4_error_propagation (f : StoreFaults) (db : DB) (id : String) (t : TodoItem)
    (now : Nat) (input : UpdateTodoInput) (newId : String) (cinp : CreateTodoInput) :
    (f.getFails id = true → id ≠ "" → Svc.GetByID f db id = .error .todoNotFound) ∧
    (f.getFails id = true → Svc.Update f db id input now = (.error .todoNotFound, db)) ∧
    (f.getFails id = true → Svc.Click f db id now = (.error .todoNotFound, db)) ∧
    (f.getFails id = true → id ≠ "" → Svc.Delete f db id = (.error .todoNotFound, db)) ∧
    (f.createFails = true →
      Svc.Create f db newId cinp now = (.error (.repo .storeUnavailable), db)) ∧
    (Repo.GetByID f db id = .ok t → f.updateFails t.id = true →
      Svc.Click f db id now = (.error (.repo .storeUnavailable), db)) ∧
    (Repo.GetByID f db id = .ok t → f.updateFails t.id = true →
      Svc.Update f db id input now = (.error (.repo .storeUnavailable), db)) ∧
    (Repo.GetByID f db id = .ok t → f.deleteFails id = true → id ≠ "" →
      Svc.Delete f db id = (.error (.repo .storeUnavailable), db)) := by
  have hgb : f.getFails id = true →
      Repo.GetByID f db id = .error .storeUnavailable := by
    intro hg
    unfold Repo.GetByID
    rw [hg]
    simp
  refine ⟨?_, ?_, ?_, ?_, ?_, ?_, ?_, ?_⟩
  · intro hg hid
    unfold Svc.GetByID
    rw [if_neg (by simpa using hid), hgb hg]
  · intro hg
    unfold Svc.Update
    rw [hgb hg]
  · intro hg
    unfold Svc.Click
    rw [hgb hg]
  · intro hg hid
    unfold Svc.Delete
    rw [if_neg (by simpa using hid), hgb hg]
  · intro hc
    unfold Svc.Create Repo.Create
    rw [hc]
    simp
  · intro hget hup
    unfold Svc.Click
    rw [hget]
    have hupd : Repo.Update f db (t.Click now) now = .error .storeUnavailable := by
      unfold Repo.Update
      rw [show (TodoItem.Click t now).id = t.id from rfl, hup]
      simp
    simp only []
    rw [hupd]
  · intro hget hup
    unfold Svc.Update
    rw [hget]
    have hupd : Repo.Update f db (t.Update input now) now
        = .error .storeUnavailable := by
      unfold Repo.Update
      rw [TodoItem.update_id, hup]
      simp
    simp only []
    rw [hupd]
  · intro hget hdel hid
    unfold Svc.Delete
    rw [if_neg (by simpa using hid), hget]
    have hrd : Repo.Delete f db id = .error .storeUnavailable := by
      unfold Repo.Delete
      rw [hdel]
      simp
    simp only []
    rw [hrd]

/-- C4, witness: with the save step failing, a click on the stored sample
item surfaces the store failure unchanged and leaves the store as it was. -/
theorem C4_witness :
    Svc.Click updateFaulty [appleShared] "a" 1
      = (.error (.repo .storeUnavailable), [appleShared]) :=
  ((C4_error_propagation updateFaulty [appleShared] "a" appleShared 1
      { type := "", name := "" } "x" { type := typeFruit, name := "X" }).2.2.2.2.2.1)
    rfl rfl

theorem statusMain_ne_statusColumn : statusMain ≠ statusColumn := by decide

theorem statusColumn_ne_statusMain : statusColumn ≠ statusMain := by decide

/-- Membership in the main bucket after one grouping step. -/
theorem groupStep_main (acc : TodosGrouped) (u t : TodoItem) :
    t ∈ (groupStep acc u).main ↔ t ∈ acc.main ∨ (t = u ∧ u.status = statusMain) := by
  unfold groupStep
  by_cases h1 : u.status = statusMain
  · simp [h1]
  · by_cases h2 : u.status = statusColumn
    · simp [h1, h2, statusColumn_ne_statusMain]
    · simp [h1, h2]

/-- Membership in a column bucket after one grouping step. -/
theorem groupStep_column (acc : TodosGrouped) (u t : TodoItem) (c : ItemType) :
    t ∈ (groupStep acc u).column c ↔
      t ∈ acc.column c ∨ (t = u ∧ u.status = statusColumn ∧ u.type = c) := by
  unfold groupStep
  by_cases h1 : u.status = statusMain
  · simp [h1, statusMain_ne_statusColumn]
  · by_cases h2 : u.status = statusColumn
    · by_cases h3 : c = u.type
      · simp [h1, h2, h3, statusColumn_ne_statusMain]
      · have h3x : u.type ≠ c := fun hh => h3 hh.symm
        simp [h1, h2, h3, h3x, statusColumn_ne_statusMain]
    · simp [h1, h2]

/-- Membership in the main bucket of the whole grouping fold. -/
theorem mem_main_list (db : DB) : ∀ (acc : TodosGrouped) (t : TodoItem),
    t ∈ (db.foldl groupStep acc).main ↔
      t ∈ acc.main ∨ (t ∈ db ∧ t.status = statusMain) := by
  induction db with
  | nil => intro acc t; simp
  | cons hd tl ih =>
    intro acc t
    rw [List.foldl_cons, ih, groupStep_main]
    constructor
    · rintro ((h | ⟨rfl, hs⟩) | ⟨hmem, hs⟩)
      · exact Or.inl h
      · exact Or.inr ⟨by simp, hs⟩
      · exact Or.inr ⟨by simp [hmem], hs⟩
    · rintro (h | ⟨hmem, hs⟩)
      · exact Or.inl (Or.inl h)
      · rcases List.mem_cons.1 hmem with rfl | hmem2
        · exact Or.inl (Or.inr ⟨rfl, hs⟩)
        · exact Or.inr ⟨hmem2, hs⟩

/-- Membership in a column bucket of the whole grouping fold. -/
theorem mem_column_list (db : DB) : ∀ (acc : TodosGrouped) (t : TodoItem) (c : ItemType),
    t ∈ (db.foldl groupStep acc).column c ↔
      t ∈ acc.column c ∨ (t ∈ db ∧ t.status = statusColumn ∧ t.type = c) := by
  induction db with
  | nil => intro acc t c; simp
  | cons hd tl ih =>
    intro acc t c
    rw [List.foldl_cons, ih, groupStep_column]
    constructor
    · rintro ((h | ⟨rfl, hs, hty⟩) | ⟨hmem, hs, hty⟩)
      · exact Or.inl h
      · exact Or.inr ⟨by simp, hs, hty⟩
      · exact Or.inr ⟨by simp [hmem], hs, hty⟩
    · rintro (h | ⟨hmem, hs, hty⟩)
      · exact Or.inl (Or.inl h)
      · rcases List.mem_cons.1 hmem with rfl | hmem2
        · exact Or.inl (Or.inr ⟨rfl, hs, hty⟩)
        · exact Or.inr ⟨hmem2, hs, hty⟩

/-- C8: `List` partitions the stored items — every `MAIN` item lands in the
main group, every `COLUMN` item in the column bucket of its own type, the
groups contain nothing else, and (statuses being the two written ones) no
item lands in both groups or in neither. -/
theorem C8_list_partitions (db : DB) (t : TodoItem) (c : ItemType)
    (hS : ∀ u ∈ db, u.status = statusMain ∨ u.status = statusColumn) :
    (t ∈ db → t.status = statusMain → t ∈ (Svc.List db).main) ∧
    (t ∈ db → t.status = statusColumn → t ∈ (Svc.List db).column t.type) ∧
    (t ∈ (Svc.List db).main → t ∈ db ∧ t.status = statusMain) ∧
    (t ∈ (Svc.List db).column c → t ∈ db ∧ t.status = statusColumn ∧ t.type = c) ∧
    (¬ (t ∈ (Svc.List db).main ∧ t ∈ (Svc.List db).column c)) ∧
    (t ∈ db → t ∈ (Svc.List db).main ∨ t ∈ (Svc.List db).column t.type) := by
  have hmain : ∀ t' : TodoItem,
      t' ∈ (Svc.List db).main ↔ t' ∈ db ∧ t'.status = statusMain := by
    intro t'
    unfold Svc.List
    rw [mem_main_list]
    simp
  have hcol : ∀ (t' : TodoItem) (c' : ItemType),
      t' ∈ (Svc.List db).column c' ↔
        t' ∈ db ∧ t'.status = statusColumn ∧ t'.type = c' := by
    intro t' c'
    unfold Svc.List
    rw [mem_column_list]
    simp
  refine ⟨fun h1 h2 => (hmain t).2 ⟨h1, h2⟩,
    fun h1 h2 => (hcol t t.type).2 ⟨h1, h2, rfl⟩,
    fun h => (hmain t).1 h,
    fun h => (hcol t c).1 h,
    ?_, ?_⟩
  · rintro ⟨ha, hb⟩
    have hsm : t.status = statusMain := ((hmain t).1 ha).2
    have hsc : t.status = statusColumn := ((hcol t c).1 hb).2.1
    exact statusMain_ne_statusColumn (hsm.symm.trans hsc)
  · intro hmem
    rcases hS t hmem with hs | hs
    · exact Or.inl ((hmain t).2 ⟨hmem, hs⟩)
    · exact Or.inr ((hcol t t.type).2 ⟨hmem, hs, rfl⟩)

/-- C8, witness: on a store holding one `MAIN` and one `COLUMN` sample item,
the fresh item lands in the main group. -/
theorem C8_witness :
    appleShared ∈ (Svc.List [appleShared, appleColumn]).main :=
  (C8_list_partitions [appleShared, appleColumn] appleShared typeFruit
      (by decide)).1 (by decide) rfl

end TodoCore
